import Mathlib

/-!
Verification development for the real-time voice conversation controller of
the `github-repo-llm` repository.

Part A embeds the `SpeechConversation` component (speech capture with
interim/final transcripts, turn sequencing against the backend message
endpoint, playback invocation, reset).  Component state variables and refs
become fields of `SCState`; the browser event handlers (`onresult`, `onend`,
the mic button's `toggleListening`, promise resolution of the backend fetch,
speech-synthesis start/end, the reset confirmation) become a `step` function
over an event type, so that reachable behaviours are folds of `step` over
event lists.

Part B embeds the `VoiceChat` WebRTC transport: ICE candidate forwarding
(`handleIceCandidate`), teardown (`stopWebRTC`) and mute (`toggleMute`).
-/

namespace SpeechConv

/-- A conversation turn, from `interface Message { text; type: 'user' | 'system' }`. -/
structure Msg where
  text : String
  isUser : Bool
  deriving DecidableEq, Repr

/-- Which page the router currently shows: the chat page or the `/auth` setup flow. -/
inductive Page where
  | chat
  | auth
  deriving DecidableEq, Repr

/-- State of the `SpeechConversation` component: its `useState` variables and refs,
plus a ghost counter `outstanding` of in-flight backend `/message` calls, a ghost
list `spoken` of texts passed to `speakText`, and `recogOn` for whether the
underlying recognition engine is currently running. -/
structure SCState where
  messages : List Msg
  isListening : Bool
  isSpeaking : Bool
  interim : String
  finalT : String
  error : Option String
  convId : Option String
  isLoading : Bool
  resetDialogOpen : Bool
  page : Page
  hasConfig : Bool
  outstanding : Nat
  spoken : List String
  recogOn : Bool
  deriving DecidableEq, Repr

/-- JavaScript `s.trim()`: remove whitespace from both ends of the string. -/
def jsTrim (s : String) : String :=
  String.mk (((s.toList.dropWhile Char.isWhitespace).reverse.dropWhile
    Char.isWhitespace).reverse)

/-- Contiguous-substring test on character lists. -/
def hasSubLC (pat : List Char) : List Char → Bool
  | [] => pat.isEmpty
  | c :: cs => pat.isPrefixOf (c :: cs) || hasSubLC pat cs

/-- JavaScript `s.includes(pat)`: `pat` occurs as a contiguous substring of `s`. -/
def strIncludes (s pat : String) : Bool :=
  hasSubLC pat.toList s.toList

/-- The body of `recognition.onresult`: fold over the results of the event
(each a pair of `isFinal` and its transcript).  A final result is appended to
the final transcript with a single separating space (or becomes it when the
buffer is empty); a non-final result overwrites the interim transcript.
Returns the pair (interim transcript, final transcript). -/
def processResults (interim finalT : String) (rs : List (Bool × String)) :
    String × String :=
  rs.foldl
    (fun p r =>
      if r.1 then
        (p.1, if p.2 = "" then r.2 else p.2 ++ " " ++ r.2)
      else
        (r.2, p.2))
    (interim, finalT)

/-- The final fragments of a result list, in arrival order. -/
def finalsOf (rs : List (Bool × String)) : List String :=
  rs.filterMap fun r => if r.1 then some r.2 else none

/-- The interim fragments of a result list, in arrival order. -/
def interimsOf (rs : List (Bool × String)) : List String :=
  rs.filterMap fun r => if r.1 then none else some r.2

/-- Concatenation of fragments in order with a single separating space,
the accumulation rule of `recognition.onresult`
(`prev ? prev + ' ' + transcript : transcript`). -/
def spaceJoin (l : List String) : String :=
  l.foldl (fun a t => if a = "" then t else a ++ " " ++ t) ""

/-- Function `handleReset`: clear the conversation id ref, close the confirmation
dialog, navigate to `/auth`.  Nothing else is touched. -/
def handleReset (s : SCState) : SCState :=
  { s with convId := none, resetDialogOpen := false, page := Page.auth }

/-- A User turn. -/
def userMsg (t : String) : Msg := { text := t, isUser := true }

/-- An Assistant (`system`) turn. -/
def sysMsg (t : String) : Msg := { text := t, isUser := false }

/-- The error text set by `handleUserInput` when the backend call fails. -/
def genericErrText : String :=
  "Sorry, there was an error processing your request. Please try again."

/-- The fallback assistant turn appended on a non-repository backend failure. -/
def fallbackMsg : Msg :=
  { text := "I'm having trouble processing your request right now. Please try again.",
    isUser := false }

/-- The synchronous prefix of `handleUserInput(text)`, up to starting the
backend fetch: skip blank text; append the User turn; bail to `/auth`
when no repository config exists; set an error when no conversation id
exists; otherwise clear the error, set loading, and start the backend call
(counted in `outstanding`). -/
def handleUserInputStart (s : SCState) (text : String) : SCState :=
  if jsTrim text = "" then s
  else
    let s1 := { s with messages := s.messages ++ [userMsg text] }
    if s.hasConfig = false then { s1 with page := Page.auth }
    else if s.convId = none then
      { s1 with error := some "No active conversation. Please try again." }
    else
      { s1 with error := none, isLoading := true, outstanding := s1.outstanding + 1 }

/-- Resolution of a pending backend `/message` call with reply `reply`:
stop loading, append the assistant turn, invoke `speakText` on the reply. -/
def resolveOk (s : SCState) (reply : String) : SCState :=
  { s with isLoading := false,
           messages := s.messages ++ [sysMsg reply],
           spoken := s.spoken ++ [reply],
           outstanding := s.outstanding - 1 }

/-- Resolution of a pending backend `/message` call with an error whose
message is `m`: surface the generic error, stop loading; when `m` mentions
`repository`, run `handleReset`; otherwise append the fallback assistant turn. -/
def resolveErr (s : SCState) (m : String) : SCState :=
  let s1 := { s with error := some genericErrText, isLoading := false,
                     outstanding := s.outstanding - 1 }
  if strIncludes m "repository" then handleReset s1
  else { s1 with messages := s1.messages ++ [fallbackMsg] }

/-- The whole asynchronous run of `handleUserInput(text)` from call to
completion of its backend fetch, assuming no interleaved events: the
synchronous prefix followed, when a fetch was actually started, by its
resolution (`Except.ok reply` for a 2xx response carrying `reply`,
`Except.error m` for a thrown error with message `m`). -/
def handleUserInputRun (s : SCState) (text : String)
    (outcome : Except String String) : SCState :=
  let s1 := handleUserInputStart s text
  if jsTrim text ≠ "" ∧ s.hasConfig = true ∧ s.convId.isSome = true then
    match outcome with
    | Except.ok reply => resolveOk s1 reply
    | Except.error m => resolveErr s1 m
  else s1

/-- Handler `recognition.onend`: when the engine was running, flush — if the final
transcript ref is non-empty, hand its trimmed value to `handleUserInput` and
clear the buffer — then record that listening and the engine have stopped. -/
def onend (s : SCState) : SCState :=
  if s.recogOn = false then s
  else
    let s1 :=
      if s.finalT ≠ "" then
        { handleUserInputStart s (jsTrim s.finalT) with finalT := "" }
      else s
    { s1 with isListening := false, recogOn := false }

/-- Function `toggleListening`, entered with the state captured at the click.
Listening: request the engine to stop (its `onend` arrives later) and drop
the listening flag.  Not listening: after microphone access (`mediaOk`),
when an engine exists and nothing is being spoken, clear both transcripts
and start the engine. -/
def toggleListening (s : SCState) (mediaOk : Bool) : SCState :=
  if s.isListening then { s with isListening := false }
  else if mediaOk then
    if s.isSpeaking = false then
      { s with finalT := "", interim := "", recogOn := true, isListening := true }
    else s
  else s

/-- The externally triggered events of the component. -/
inductive Ev where
  | convStarted (id : String)
  | result (rs : List (Bool × String))
  | recEnd
  | recError
  | clickMic (mediaOk : Bool)
  | backendOk (reply : String)
  | backendErr (m : String)
  | speakStart
  | speakEnd
  | clickReset
  deriving DecidableEq, Repr

/-- One step of the component: dispatch an event against the current state.
The mic button is `disabled={isSpeaking}`, so `clickMic` is a no-op while
speaking; recognition callbacks only fire while the engine runs; backend
resolutions only fire while a call is outstanding. -/
def step (s : SCState) (e : Ev) : SCState :=
  match e with
  | Ev.convStarted id => if s.convId = none then { s with convId := some id } else s
  | Ev.result rs =>
      if s.recogOn then
        let p := processResults s.interim s.finalT rs
        { s with interim := p.1, finalT := p.2 }
      else s
  | Ev.recEnd => onend s
  | Ev.recError => if s.recogOn then { s with isListening := false, recogOn := false } else s
  | Ev.clickMic mediaOk => if s.isSpeaking then s else toggleListening s mediaOk
  | Ev.backendOk reply => if 0 < s.outstanding then resolveOk s reply else s
  | Ev.backendErr m => if 0 < s.outstanding then resolveErr s m else s
  | Ev.speakStart => { s with isSpeaking := true }
  | Ev.speakEnd => { s with isSpeaking := false }
  | Ev.clickReset => handleReset s

/-- The component's initial state: fresh mount with a stored repository config. -/
def init : SCState :=
  { messages := [], isListening := false, isSpeaking := false, interim := "",
    finalT := "", error := none, convId := none, isLoading := false,
    resetDialogOpen := false, page := Page.chat, hasConfig := true,
    outstanding := 0, spoken := [], recogOn := false }

/-- Run a list of events from a state. -/
def run (s : SCState) (evs : List Ev) : SCState :=
  evs.foldl step s

end SpeechConv

namespace VoiceRTC

/-- An ICE-related occurrence in `setupWebRTC`'s lifetime: the local agent
reports a candidate (`none` is the end-of-candidates marker the browser
delivers with a null candidate), or the backend's response to the offer
POST returns. -/
inductive IceEv where
  | discovered (c : Option Nat)
  | answer
  deriving DecidableEq, Repr

/-- Signaling-side observable state: the candidates POSTed so far to the
signaling endpoint (in order), and whether the offer response has returned. -/
structure IceState where
  sent : List Nat
  answered : Bool
  deriving DecidableEq, Repr

/-- Handler `peerConnection.onicecandidate = handleIceCandidate`: a non-null
candidate is POSTed to the signaling endpoint immediately; the answer
event just records that the offer response returned. -/
def iceStep (st : IceState) (e : IceEv) : IceState :=
  match e with
  | IceEv.discovered (some c) => { st with sent := st.sent ++ [c] }
  | IceEv.discovered none => st
  | IceEv.answer => { st with answered := true }

/-- Run of the code's candidate handling over a sequence of ICE events. -/
def iceRun (evs : List IceEv) : IceState :=
  evs.foldl iceStep { sent := [], answered := false }

/-- The non-null candidates of an event sequence, in discovery order. -/
def candidatesOf (evs : List IceEv) : List Nat :=
  evs.filterMap fun e =>
    match e with
    | IceEv.discovered (some c) => some c
    | _ => none

/-- Modelled from the spec: the claimed queueing behaviour — "candidates
arriving before the offer response must be queued" and "later forwarded":
before the answer returns, candidates go into a queue and nothing is sent;
when the answer returns the queue is flushed to the endpoint. -/
def queuedIceStep (st : IceState × List Nat) (e : IceEv) : IceState × List Nat :=
  match e with
  | IceEv.discovered (some c) =>
      if st.1.answered then ({ st.1 with sent := st.1.sent ++ [c] }, st.2)
      else (st.1, st.2 ++ [c])
  | IceEv.discovered none => st
  | IceEv.answer => ({ sent := st.1.sent ++ st.2, answered := true }, [])

/-- Run of the spec-claimed queueing behaviour. -/
def queuedIceRun (evs : List IceEv) : IceState × List Nat :=
  evs.foldl queuedIceStep ({ sent := [], answered := false }, [])

/-- A local media track held by a sender of the peer connection
(`sender.track`; kept as an object even after the connection ref is
dropped).  `isAudio` is `track.kind === 'audio'`. -/
structure Track where
  isAudio : Bool
  stopped : Bool
  enabled : Bool
  deriving DecidableEq, Repr

/-- State of the `VoiceChat` component around the transport: presence of
the peer-connection ref, the tracks its senders hold (`none` for a sender
with a null track), presence of the audio context and the two analyser
source nodes, the recording and mute flags, the message list and the
error display. -/
structure RTCState where
  pc : Bool
  senders : List (Option Track)
  audioCtx : Bool
  srcIn : Bool
  srcOut : Bool
  isRecording : Bool
  isMuted : Bool
  msgs : List String
  errorMsg : Option String
  deriving DecidableEq, Repr

/-- Function `stopWebRTC`: when the peer connection ref is set, stop each sender's
non-null track, close the connection and drop the ref; close and drop the
audio context if present; disconnect and drop each source node if present;
clear the recording and mute flags. -/
def stopWebRTC (s : RTCState) : RTCState :=
  let s1 :=
    if s.pc then
      { s with senders := s.senders.map (Option.map fun t => { t with stopped := true }),
               pc := false }
    else s
  let s2 := if s1.audioCtx then { s1 with audioCtx := false } else s1
  let s3 := if s2.srcIn then { s2 with srcIn := false } else s2
  let s4 := if s3.srcOut then { s3 with srcOut := false } else s3
  { s4 with isRecording := false, isMuted := false }

/-- Function `toggleMute`: only when the peer connection ref is set, set
`enabled := !newMutedState` on every non-null audio sender track and flip
the mute flag; otherwise do nothing at all. -/
def toggleMute (s : RTCState) : RTCState :=
  if s.pc then
    { s with senders := s.senders.map (Option.map fun t =>
               if t.isAudio then { t with enabled := s.isMuted } else t),
             isMuted := !s.isMuted }
  else s

end VoiceRTC

namespace SpeechConv

/-- A reachable state whose final transcript is non-empty but whitespace-only:
capture was started and the engine reported the single final fragment `" "`. -/
def wsFinalState : SCState :=
  run init [Ev.convStarted "c1", Ev.clickMic true, Ev.result [(true, " ")]]

/-- Event sequence in which a second utterance is captured and flushed while
the backend call for the first one is still outstanding: capture `"a"`, stop,
flush at `recEnd` (first call starts), then capture `"b"`, stop, flush at
`recEnd` again before any backend resolution arrives. -/
def overlapTrace : List Ev :=
  [Ev.convStarted "c1", Ev.clickMic true, Ev.result [(true, "a")],
   Ev.clickMic true, Ev.recEnd, Ev.clickMic true, Ev.result [(true, "b")],
   Ev.clickMic true, Ev.recEnd]

/-- A reachable state with conversation history, active playback and a
running capture engine, followed by the user confirming the reset dialog. -/
def busyThenReset : SCState :=
  run init [Ev.convStarted "c1", Ev.clickMic true, Ev.result [(true, "hello")],
            Ev.clickMic true, Ev.recEnd, Ev.backendOk "hi", Ev.clickMic true,
            Ev.speakStart, Ev.clickReset]

/-- A concrete state used to instantiate theorems with hypotheses: a live
conversation whose capture engine is running with final transcript `"b"`
while one backend call is already outstanding. -/
def pendingState : SCState :=
  { init with convId := some "c1", recogOn := true, finalT := "b",
              outstanding := 1, isLoading := true,
              messages := [userMsg "a"] }

/-- A live conversation in its idle state. -/
def readyState : SCState := { init with convId := some "c1" }

/-- A state in which the assistant is currently speaking. -/
def speakingState : SCState := { init with isSpeaking := true }

end SpeechConv

namespace VoiceRTC

/-- A concrete transport state: open peer connection with one live audio
track, one null-track sender, a live audio graph, recording and muted. -/
def liveRTC : RTCState :=
  { pc := true,
    senders := [some { isAudio := true, stopped := false, enabled := false },
                some { isAudio := false, stopped := false, enabled := true },
                none],
    audioCtx := true, srcIn := true, srcOut := false,
    isRecording := true, isMuted := true, msgs := ["m"], errorMsg := none }

end VoiceRTC

namespace SpeechConv

theorem processResults_final (rs : List (Bool × String)) :
    ∀ i f, (processResults i f rs).2 =
      (finalsOf rs).foldl (fun a t => if a = "" then t else a ++ " " ++ t) f := by
  induction rs with
  | nil => intro i f; rfl
  | cons r t ih =>
      intro i f
      rcases r with ⟨b, x⟩
      cases b with
      | true => simpa [processResults, finalsOf, List.foldl] using ih i _
      | false => simpa [processResults, finalsOf, List.foldl] using ih x f

theorem getLastD_cons {α : Type} (a i : α) (l : List α) :
    ((a :: l).getLast?).getD i = (l.getLast?).getD a := by
  cases l with
  | nil => rfl
  | cons b m =>
      rw [List.getLast?_cons_cons]
      cases h : (b :: m).getLast? with
      | none => exact absurd h (by simp)
      | some x => rfl

theorem processResults_interim (rs : List (Bool × String)) :
    ∀ i f, (processResults i f rs).1 = ((interimsOf rs).getLast?).getD i := by
  induction rs with
  | nil => intro i f; rfl
  | cons r t ih =>
      intro i f
      rcases r with ⟨b, x⟩
      cases b with
      | true => simpa [processResults, interimsOf, List.foldl] using ih i _
      | false =>
          rw [show interimsOf ((false, x) :: t) = x :: interimsOf t from rfl,
              getLastD_cons]
          simpa [processResults, interimsOf, List.foldl] using ih x f

end SpeechConv

namespace SpeechConv

theorem length_dropWhile_le {α : Type} (p : α → Bool) :
    ∀ l : List α, (l.dropWhile p).length ≤ l.length := by
  intro l
  induction l with
  | nil => simp [List.dropWhile]
  | cons a t ih =>
      rw [List.dropWhile_cons]
      by_cases hp : p a
      · rw [if_pos hp]; exact Nat.le_trans ih (Nat.le_succ _)
      · rw [if_neg hp]

theorem dropWhile_after_rdropWhile {α : Type} (p : α → Bool) (m : List α)
    (hm : m.dropWhile p = m) :
    (m.rdropWhile p).dropWhile p = m.rdropWhile p := by
  obtain ⟨t, ht⟩ := List.rdropWhile_prefix p m
  cases hn : m.rdropWhile p with
  | nil => rfl
  | cons a n' =>
      rw [hn] at ht
      rw [List.dropWhile_cons]
      by_cases hp : p a
      · exfalso
        rw [← ht, List.cons_append, List.dropWhile_cons, if_pos hp] at hm
        have hlen := length_dropWhile_le p (n' ++ t)
        rw [hm] at hlen
        simp only [List.length_cons, List.length_append] at hlen
        omega
      · rw [if_neg hp]

theorem jsTrim_eq_rdrop (s : String) :
    jsTrim s = String.mk ((s.toList.dropWhile Char.isWhitespace).rdropWhile
      Char.isWhitespace) := rfl

theorem jsTrim_idem (s : String) : jsTrim (jsTrim s) = jsTrim s := by
  have h1 : ((s.toList.dropWhile Char.isWhitespace).rdropWhile
      Char.isWhitespace).dropWhile Char.isWhitespace
      = (s.toList.dropWhile Char.isWhitespace).rdropWhile Char.isWhitespace :=
    dropWhile_after_rdropWhile _ _ (List.dropWhile_idempotent _ _)
  show String.mk ((((s.toList.dropWhile Char.isWhitespace).rdropWhile
      Char.isWhitespace).dropWhile Char.isWhitespace).rdropWhile Char.isWhitespace)
      = jsTrim s
  rw [h1, jsTrim_eq_rdrop, List.rdropWhile_idempotent]

theorem jsTrim_ne_of_trim_ne {s : String} (h : jsTrim s ≠ "") : s ≠ "" := by
  intro hs
  exact h (by rw [hs]; decide)

end SpeechConv

namespace SpeechConv

theorem handleUserInputStart_eq (s : SCState) (text : String)
    (ht : jsTrim text ≠ "") (hc : s.hasConfig = true) (hid : s.convId.isSome = true) :
    handleUserInputStart s text =
      { s with messages := s.messages ++ [userMsg text],
               error := none, isLoading := true,
               outstanding := s.outstanding + 1 } := by
  have hconv : ¬ s.convId = none := by
    intro h; rw [h] at hid; simp at hid
  rw [handleUserInputStart, if_neg ht, if_neg (by rw [hc]; decide),
      if_neg hconv]

theorem onend_flush (s : SCState)
    (hr : s.recogOn = true) (ht : jsTrim s.finalT ≠ "")
    (hc : s.hasConfig = true) (hid : s.convId.isSome = true) :
    onend s =
      { s with messages := s.messages ++ [userMsg (jsTrim s.finalT)],
               finalT := "", error := none, isLoading := true,
               outstanding := s.outstanding + 1,
               isListening := false, recogOn := false } := by
  have ht2 : jsTrim (jsTrim s.finalT) ≠ "" := by rw [jsTrim_idem]; exact ht
  rw [onend, if_neg (by rw [hr]; decide),
      if_pos (jsTrim_ne_of_trim_ne ht),
      handleUserInputStart_eq s (jsTrim s.finalT) ht2 hc hid]

end SpeechConv

namespace VoiceRTC

theorem foldl_iceStep_sent (evs : List IceEv) :
    ∀ st : IceState, (evs.foldl iceStep st).sent = st.sent ++ candidatesOf evs := by
  induction evs with
  | nil => intro st; simp [candidatesOf]
  | cons e t ih =>
      intro st
      cases e with
      | discovered c =>
          cases c with
          | none => simpa [iceStep, candidatesOf] using ih st
          | some x =>
              rw [List.foldl_cons]
              rw [show iceStep st (IceEv.discovered (some x))
                    = { st with sent := st.sent ++ [x] } from rfl]
              rw [ih, show candidatesOf (IceEv.discovered (some x) :: t)
                    = x :: candidatesOf t from rfl]
              simp
      | answer => simpa [iceStep, candidatesOf] using ih { st with answered := true }

theorem stopWebRTC_eq (s : RTCState) :
    stopWebRTC s =
      { pc := false,
        senders := if s.pc then
            s.senders.map (Option.map fun t => { t with stopped := true })
          else s.senders,
        audioCtx := false, srcIn := false, srcOut := false,
        isRecording := false, isMuted := false,
        msgs := s.msgs, errorMsg := s.errorMsg } := by
  cases hpc : s.pc <;> cases hac : s.audioCtx <;> cases hsi : s.srcIn <;>
    cases hso : s.srcOut <;> simp [stopWebRTC, hpc, hac, hsi, hso]

end VoiceRTC

namespace SpeechConv

theorem resolveOk_outstanding (s : SCState) (r : String) :
    (resolveOk s r).outstanding = s.outstanding - 1 := rfl

theorem resolveErr_outstanding (s : SCState) (m : String) :
    (resolveErr s m).outstanding = s.outstanding - 1 := by
  rw [resolveErr]
  by_cases hm : strIncludes m "repository" = true
  · rw [if_pos hm]; try rfl
  · rw [if_neg hm]; try rfl

theorem toggleListening_outstanding (s : SCState) (b : Bool) :
    (toggleListening s b).outstanding = s.outstanding := by
  rw [toggleListening]
  by_cases hl : s.isListening
  · rw [if_pos hl]
  · rw [if_neg hl]
    cases b
    · rfl
    · by_cases hs : s.isSpeaking = false <;> simp [hs]

theorem onend_outstanding (s : SCState) :
    (onend s).outstanding = s.outstanding ∨
    ((onend s).outstanding = s.outstanding + 1 ∧ s.recogOn = true ∧
      jsTrim s.finalT ≠ "" ∧ s.hasConfig = true ∧ s.convId.isSome = true) := by
  by_cases hr : s.recogOn = false
  · left; simp [onend, hr]
  · by_cases hf : s.finalT ≠ ""
    · by_cases hg : jsTrim (jsTrim s.finalT) = ""
      · left; simp [onend, hr, hf, handleUserInputStart, hg]
      · by_cases hc : s.hasConfig = false
        · left; simp [onend, hr, hf, handleUserInputStart, hg, hc]
        · by_cases hid : s.convId = none
          · left; simp [onend, hr, hf, handleUserInputStart, hg, hc, hid]
          · right
            refine ⟨?_, ?_, ?_, ?_, ?_⟩
            · simp [onend, hr, hf, handleUserInputStart, hg, hc, hid]
            · revert hr; cases s.recogOn <;> simp
            · intro h; exact hg (by rw [jsTrim_idem]; exact h)
            · revert hc; cases s.hasConfig <;> simp
            · cases hcv : s.convId with
              | none => exact absurd hcv hid
              | some x => rfl
    · left; simp [onend, hr, hf]

end SpeechConv

namespace SpeechConv

/-- C1: each interim result replaces the interim transcript wholesale (the
interim transcript after a result event is just its latest interim fragment),
each final result is appended with a single separating space, so the final
transcript after any result sequence started from a cleared buffer is the
space-separated concatenation of the final fragments in arrival order; in
particular two successive finals "show" then "contributors" give
"show contributors". -/
theorem transcript_accumulation (i0 : String) (rs : List (Bool × String)) :
    (processResults i0 "" rs).2 = spaceJoin (finalsOf rs) ∧
    (processResults i0 "" rs).1 = ((interimsOf rs).getLast?).getD i0 ∧
    (processResults "" "" [(true, "show"), (true, "contributors")]).2
      = "show contributors" :=
  ⟨processResults_final rs i0 "", processResults_interim rs i0 "", by decide⟩

/-- C2 counterexample: in the reachable state where the only final fragment
was the whitespace string " ", the final transcript is non-empty at the
engine's end-of-session, yet no user Turn is forwarded (no message is
appended and no backend call starts); the claim "if the accumulated final
transcript is non-empty it is forwarded exactly once as one completed user
Turn" fails at that input. -/
theorem flush_whitespace_counterexample :
    wsFinalState.finalT ≠ "" ∧
    (onend wsFinalState).messages = [] ∧
    (onend wsFinalState).outstanding = 0 ∧
    (onend wsFinalState).finalT = "" := by decide

/-- C2 (amended): a Turn is flushed only at the engine's end-of-session,
never at the stop() request (which only drops the listening flag); at
end-of-session, a final transcript with non-whitespace content is forwarded
exactly once as one user Turn and the buffer is cleared; an empty final
transcript causes nothing but the listening flags to drop; a non-empty but
whitespace-only final transcript is cleared without emitting a Turn.  No
case raises an error. -/
theorem flush_only_at_onend (s : SCState) (b : Bool) :
    (s.isSpeaking = false → s.isListening = true →
      step s (Ev.clickMic b) = { s with isListening := false }) ∧
    (s.recogOn = true → jsTrim s.finalT ≠ "" → s.hasConfig = true →
      s.convId.isSome = true →
      onend s = { s with messages := s.messages ++ [userMsg (jsTrim s.finalT)],
                         finalT := "", error := none, isLoading := true,
                         outstanding := s.outstanding + 1,
                         isListening := false, recogOn := false }) ∧
    (s.recogOn = true → s.finalT = "" →
      onend s = { s with isListening := false, recogOn := false }) ∧
    (s.recogOn = true → s.finalT ≠ "" → jsTrim s.finalT = "" →
      onend s = { s with finalT := "", isListening := false, recogOn := false }) := by
  refine ⟨?_, ?_, ?_, ?_⟩
  · intro hsp hl
    simp [step, toggleListening, hsp, hl]
  · intro hr ht hc hid
    exact onend_flush s hr ht hc hid
  · intro hr he
    simp [onend, hr, he]
  · intro hr hne hw
    have hg : jsTrim (jsTrim s.finalT) = "" := by rw [jsTrim_idem]; exact hw
    simp [onend, hr, hne, handleUserInputStart, hg]

/-- Witness for C2 (amended), at a concrete live state with final
transcript "b" and one call already outstanding. -/
theorem flush_only_at_onend_witness :
    onend pendingState =
      { pendingState with
        messages := pendingState.messages ++ [userMsg (jsTrim pendingState.finalT)],
        finalT := "", error := none, isLoading := true,
        outstanding := pendingState.outstanding + 1,
        isListening := false, recogOn := false } :=
  (flush_only_at_onend pendingState true).2.1 rfl (by decide) rfl rfl

/-- C3: when the backend message call of `handleUserInput(text)` succeeds
with reply `reply`, the run appends the User turn with `text`, then the
Assistant turn with `reply` after it, and invokes speech playback exactly
once with exactly `reply`; all other state (conversation id, transcripts,
listening/speaking flags, outstanding count) is as before, with loading
cleared and no error. -/
theorem submit_success (s : SCState) (text reply : String)
    (ht : jsTrim text ≠ "") (hc : s.hasConfig = true)
    (hid : s.convId.isSome = true) :
    handleUserInputRun s text (Except.ok reply) =
      { s with messages := s.messages ++ [userMsg text, sysMsg reply],
               spoken := s.spoken ++ [reply], error := none,
               isLoading := false } := by
  rw [handleUserInputRun]
  rw [if_pos ⟨ht, hc, hid⟩]
  rw [handleUserInputStart_eq s text ht hc hid]
  simp [resolveOk]

/-- Witness for C3: the spec scenario "list issues" / "Here are the
issues...". -/
theorem submit_success_witness :
    handleUserInputRun readyState "list issues"
        (Except.ok "Here are the issues...") =
      { readyState with
        messages := readyState.messages
          ++ [userMsg "list issues", sysMsg "Here are the issues..."],
        spoken := readyState.spoken ++ ["Here are the issues..."],
        error := none, isLoading := false } :=
  submit_success readyState "list issues" "Here are the issues..."
    (by decide) rfl rfl

/-- C4: when the backend message call fails, the generic error is surfaced
and the fallback Assistant turn is appended — except when the failure
message mentions the repository context, in which case `handleReset` runs
instead: the session id is cleared and the user is returned to the setup
flow (the error banner is still set in that case). -/
theorem submit_failure (s : SCState) (text m : String)
    (ht : jsTrim text ≠ "") (hc : s.hasConfig = true)
    (hid : s.convId.isSome = true) :
    (strIncludes m "repository" = true →
      handleUserInputRun s text (Except.error m) =
        { s with messages := s.messages ++ [userMsg text],
                 error := some genericErrText, isLoading := false,
                 convId := none, resetDialogOpen := false,
                 page := Page.auth }) ∧
    (strIncludes m "repository" = false →
      handleUserInputRun s text (Except.error m) =
        { s with messages := s.messages ++ [userMsg text, fallbackMsg],
                 error := some genericErrText, isLoading := false }) := by
  constructor <;> intro hm <;>
    rw [handleUserInputRun, if_pos ⟨ht, hc, hid⟩,
        handleUserInputStart_eq s text ht hc hid] <;>
    simp [resolveErr, handleReset, hm]

/-- Witness for C4: a repository-invalid failure forces the reset, any
other failure appends the fallback Assistant turn. -/
theorem submit_failure_witness :
    (handleUserInputRun readyState "x" (Except.error "bad repository state") =
      { readyState with
        messages := readyState.messages ++ [userMsg "x"],
        error := some genericErrText, isLoading := false,
        convId := none, resetDialogOpen := false, page := Page.auth }) ∧
    (handleUserInputRun readyState "x" (Except.error "boom") =
      { readyState with
        messages := readyState.messages ++ [userMsg "x", fallbackMsg],
        error := some genericErrText, isLoading := false }) :=
  ⟨(submit_failure readyState "x" "bad repository state"
      (by decide) rfl rfl).1 (by decide),
   (submit_failure readyState "x" "boom" (by decide) rfl rfl).2 (by decide)⟩

end SpeechConv

namespace SpeechConv

/-- C5 counterexample: the claim that no two backend message calls are ever
outstanding simultaneously fails — after the concrete reachable event
sequence `overlapTrace` (capture and flush "a", then capture and flush "b"
before any backend resolution), two backend calls are outstanding at once. -/
theorem single_flight_counterexample :
    (run init overlapTrace).outstanding = 2 := by decide

/-- C5 (amended): the controller does not serialize backend calls.  What
holds is: any single event starts at most one backend call, and an event
that does start one is precisely a recognition end-of-session with the
engine running, a final transcript with non-whitespace content, a stored
repository config and a live conversation id — so a second call can start
while one is outstanding, but only through a fresh completed capture
session. -/
theorem backend_call_initiation (s : SCState) (e : Ev) :
    (step s e).outstanding ≤ s.outstanding + 1 ∧
    (s.outstanding < (step s e).outstanding →
      e = Ev.recEnd ∧ s.recogOn = true ∧ jsTrim s.finalT ≠ "" ∧
      s.hasConfig = true ∧ s.convId.isSome = true ∧
      (step s e).outstanding = s.outstanding + 1) := by
  cases e with
  | convStarted id =>
      have h : (step s (Ev.convStarted id)).outstanding = s.outstanding := by
        by_cases h : s.convId = none <;> simp [step, h]
      rw [h]
      exact ⟨Nat.le_succ _, fun hlt => absurd hlt (lt_irrefl _)⟩
  | result rs =>
      have h : (step s (Ev.result rs)).outstanding = s.outstanding := by
        by_cases h : s.recogOn = true <;> simp [step, h]
      rw [h]
      exact ⟨Nat.le_succ _, fun hlt => absurd hlt (lt_irrefl _)⟩
  | recEnd =>
      have hs : step s Ev.recEnd = onend s := rfl
      rcases onend_outstanding s with h | ⟨h1, h2, h3, h4, h5⟩
      · rw [hs, h]
        exact ⟨Nat.le_succ _, fun hlt => absurd hlt (lt_irrefl _)⟩
      · rw [hs, h1]
        exact ⟨Nat.le_refl _, fun _ => ⟨rfl, h2, h3, h4, h5, rfl⟩⟩
  | recError =>
      have h : (step s Ev.recError).outstanding = s.outstanding := by
        by_cases h : s.recogOn = true <;> simp [step, h]
      rw [h]
      exact ⟨Nat.le_succ _, fun hlt => absurd hlt (lt_irrefl _)⟩
  | clickMic b =>
      have h : (step s (Ev.clickMic b)).outstanding = s.outstanding := by
        by_cases h : s.isSpeaking = true <;>
          simp [step, h, toggleListening_outstanding]
      rw [h]
      exact ⟨Nat.le_succ _, fun hlt => absurd hlt (lt_irrefl _)⟩
  | backendOk r =>
      have h : (step s (Ev.backendOk r)).outstanding ≤ s.outstanding := by
        by_cases h : 0 < s.outstanding <;>
          simp [step, h, resolveOk_outstanding]
      exact ⟨Nat.le_trans h (Nat.le_succ _), fun hlt => absurd hlt (by omega)⟩
  | backendErr m =>
      have h : (step s (Ev.backendErr m)).outstanding ≤ s.outstanding := by
        by_cases h : 0 < s.outstanding <;>
          simp [step, h, resolveErr_outstanding]
      exact ⟨Nat.le_trans h (Nat.le_succ _), fun hlt => absurd hlt (by omega)⟩
  | speakStart =>
      exact ⟨Nat.le_succ _, fun hlt => absurd hlt (lt_irrefl _)⟩
  | speakEnd =>
      exact ⟨Nat.le_succ _, fun hlt => absurd hlt (lt_irrefl _)⟩
  | clickReset =>
      exact ⟨Nat.le_succ _, fun hlt => absurd hlt (lt_irrefl _)⟩

/-- Witness for C5 (amended), at the concrete pending state: the
end-of-session flush of "b" starts exactly one further backend call. -/
theorem backend_call_initiation_witness :
    (step pendingState Ev.recEnd).outstanding ≤ pendingState.outstanding + 1 ∧
    (Ev.recEnd = Ev.recEnd ∧ pendingState.recogOn = true ∧
      jsTrim pendingState.finalT ≠ "" ∧ pendingState.hasConfig = true ∧
      pendingState.convId.isSome = true ∧
      (step pendingState Ev.recEnd).outstanding
        = pendingState.outstanding + 1) :=
  ⟨(backend_call_initiation pendingState Ev.recEnd).1,
   (backend_call_initiation pendingState Ev.recEnd).2 (by decide)⟩

/-- C6 counterexample: after the reachable sequence `busyThenReset` ending
in the confirmed reset, the session id is cleared and the user is back at
setup, but the Turn history is NOT cleared and both playback and the
capture engine are still active, contradicting "the Turn history is cleared
and any in-flight capture, playback ... has been cancelled". -/
theorem reset_counterexample :
    busyThenReset.convId = none ∧ busyThenReset.page = Page.auth ∧
    busyThenReset.messages ≠ [] ∧ busyThenReset.isSpeaking = true ∧
    busyThenReset.recogOn = true := by decide

/-- C6 (amended): `handleReset` clears the session identifier, closes the
confirmation dialog and returns the user to the setup flow; it leaves the
Turn history, the speaking/listening/engine flags, the transcript buffer,
the outstanding backend calls and the playback log untouched. -/
theorem reset_effect (s : SCState) :
    (step s Ev.clickReset).convId = none ∧
    (step s Ev.clickReset).page = Page.auth ∧
    (step s Ev.clickReset).resetDialogOpen = false ∧
    (step s Ev.clickReset).messages = s.messages ∧
    (step s Ev.clickReset).isSpeaking = s.isSpeaking ∧
    (step s Ev.clickReset).recogOn = s.recogOn ∧
    (step s Ev.clickReset).isListening = s.isListening ∧
    (step s Ev.clickReset).outstanding = s.outstanding ∧
    (step s Ev.clickReset).spoken = s.spoken ∧
    (step s Ev.clickReset).finalT = s.finalT :=
  ⟨rfl, rfl, rfl, rfl, rfl, rfl, rfl, rfl, rfl, rfl⟩

/-- C7: a request to begin listening made while an utterance is being
spoken does not start the recognition engine: the mic button is disabled
(the click is a no-op), and even calling `toggleListening` directly in a
non-listening state changes nothing. -/
theorem capture_gated_by_playback (s : SCState) (b : Bool)
    (hs : s.isSpeaking = true) :
    step s (Ev.clickMic b) = s ∧
    (s.isListening = false → toggleListening s b = s) := by
  constructor
  · simp [step, hs]
  · intro hl
    cases b <;> simp [toggleListening, hl, hs]

/-- Witness for C7 at the concrete speaking state. -/
theorem capture_gated_witness :
    step speakingState (Ev.clickMic true) = speakingState ∧
    toggleListening speakingState true = speakingState :=
  ⟨(capture_gated_by_playback speakingState true rfl).1,
   (capture_gated_by_playback speakingState true rfl).2 rfl⟩

end SpeechConv

namespace VoiceRTC

/-- C8 counterexample: a candidate discovered before the offer response has
returned is POSTed to the signaling endpoint immediately — the code's run
has already sent it while `answered` is still false, whereas the claimed
queueing behaviour would still be holding it in the queue with nothing
sent. -/
theorem trickle_queue_counterexample :
    (iceRun [IceEv.discovered (some 5)]).answered = false ∧
    (iceRun [IceEv.discovered (some 5)]).sent = [5] ∧
    (queuedIceRun [IceEv.discovered (some 5)]).1.sent = [] ∧
    (queuedIceRun [IceEv.discovered (some 5)]).2 = [5] := by decide

/-- C8 (amended): every locally discovered network candidate is forwarded
to the signaling endpoint, in discovery order, immediately as it is
discovered — whether or not the offer response has returned; none is
dropped (and none is queued). -/
theorem candidates_forwarded (evs : List IceEv) :
    (iceRun evs).sent = candidatesOf evs := by
  rw [iceRun, foldl_iceStep_sent]
  rfl

/-- C9: `stopWebRTC` is total and idempotent — it can run from any
transport state, running it twice equals running it once — and afterwards
the peer connection ref is gone, the audio graph (context and both source
nodes) is released and the recording and mute flags are cleared; when a
peer connection was present, every non-null sender track has been
stopped. -/
theorem teardown_idempotent (s : RTCState) :
    stopWebRTC (stopWebRTC s) = stopWebRTC s ∧
    (stopWebRTC s).pc = false ∧
    (stopWebRTC s).audioCtx = false ∧
    (stopWebRTC s).srcIn = false ∧
    (stopWebRTC s).srcOut = false ∧
    (stopWebRTC s).isRecording = false ∧
    (stopWebRTC s).isMuted = false ∧
    (s.pc = true →
      ((stopWebRTC s).senders.all fun o => o.all fun tr => tr.stopped)
        = true) := by
  refine ⟨?_, ?_, ?_, ?_, ?_, ?_, ?_, ?_⟩
  · rw [stopWebRTC_eq s, stopWebRTC_eq]
    simp
  · rw [stopWebRTC_eq]
  · rw [stopWebRTC_eq]
  · rw [stopWebRTC_eq]
  · rw [stopWebRTC_eq]
  · rw [stopWebRTC_eq]
  · rw [stopWebRTC_eq]
  · intro hpc
    rw [stopWebRTC_eq]
    simp only [hpc, if_pos]
    rw [List.all_eq_true]
    intro o ho
    rw [List.mem_map] at ho
    obtain ⟨u, hu, rfl⟩ := ho
    cases u with
    | none => rfl
    | some tr => rfl

/-- Witness for C9 at the concrete live transport state. -/
theorem teardown_idempotent_witness :
    ((stopWebRTC liveRTC).senders.all fun o => o.all fun tr => tr.stopped)
      = true :=
  (teardown_idempotent liveRTC).2.2.2.2.2.2.2 rfl

/-- C10: toggling mute with no peer connection changes nothing at all (the
muted flag is not even flipped); with a peer connection it flips the muted
flag, leaves the recording state, the connection, the audio graph, the
message history and the error display unchanged, preserves every sender
track's kind and stopped flag, and sets the enabled flag of exactly the
audio tracks (to the previous muted value), leaving other tracks' enabled
flags alone. -/
theorem mute_frame (s : RTCState) :
    (s.pc = false → toggleMute s = s) ∧
    (s.pc = true →
      (toggleMute s).isMuted = !s.isMuted ∧
      (toggleMute s).pc = true ∧
      (toggleMute s).audioCtx = s.audioCtx ∧
      (toggleMute s).srcIn = s.srcIn ∧
      (toggleMute s).srcOut = s.srcOut ∧
      (toggleMute s).isRecording = s.isRecording ∧
      (toggleMute s).msgs = s.msgs ∧
      (toggleMute s).errorMsg = s.errorMsg ∧
      (toggleMute s).senders.map (Option.map fun t => (t.isAudio, t.stopped))
        = s.senders.map (Option.map fun t => (t.isAudio, t.stopped)) ∧
      (toggleMute s).senders.map (Option.map Track.enabled)
        = s.senders.map (Option.map fun t =>
            if t.isAudio then s.isMuted else t.enabled)) := by
  constructor
  · intro hpc
    rw [toggleMute, if_neg (by rw [hpc]; decide)]
  · intro hpc
    rw [toggleMute, if_pos hpc]
    refine ⟨rfl, hpc, rfl, rfl, rfl, rfl, rfl, rfl, ?_, ?_⟩
    · show (s.senders.map _).map _ = _
      rw [List.map_map]
      refine List.map_congr_left ?_
      intro o ho
      cases o with
      | none => rfl
      | some tr => by_cases h : tr.isAudio <;> simp [h]
    · show (s.senders.map _).map _ = _
      rw [List.map_map]
      refine List.map_congr_left ?_
      intro o ho
      cases o with
      | none => rfl
      | some tr => by_cases h : tr.isAudio <;> simp [h]

/-- Witness for C10 at concrete states with and without a peer
connection. -/
theorem mute_frame_witness :
    toggleMute { liveRTC with pc := false } = { liveRTC with pc := false } ∧
    (toggleMute liveRTC).isMuted = !liveRTC.isMuted ∧
    (toggleMute liveRTC).msgs = liveRTC.msgs ∧
    (toggleMute liveRTC).senders.map (Option.map Track.enabled)
      = liveRTC.senders.map (Option.map fun t =>
          if t.isAudio then liveRTC.isMuted else t.enabled) :=
  ⟨(mute_frame { liveRTC with pc := false }).1 rfl,
   ((mute_frame liveRTC).2 rfl).1,
   ((mute_frame liveRTC).2 rfl).2.2.2.2.2.2.1,
   ((mute_frame liveRTC).2 rfl).2.2.2.2.2.2.2.2.2⟩

end VoiceRTC
